import Mathlib

/-!
Verification of the `outflow` lead-enrichment worker.

This file shallowly embeds the data model and the pure decision logic of the
worker's agents, tools and database helpers, and proves the frozen claims
about them.  Each definition is translated from one function of the source:

* `emailFinderFinish`      — `applyo-worker/src/tools/searchWeb.ts`, `emailFinder.execute`
  (post-extraction part: dedup, verification, final output);
* `searchWebExecute`       — `applyo-worker/src/tools/searchWeb.ts`, `searchWeb.execute`;
* `extractClean`, `orchestratorFinish`, `employeesLoop`
  — `applyo-worker/src/agents/peoplefinder.ts`, `Orchestrator.onRequest`;
* `upsertCompany`, `upsertEmployee` — `applyo-worker/src/db/companies.ts`;
* `templatesList/Create/Update/Delete` — the `ProtectedTemplates*Route.handle`
  methods of `applyo-worker/src/tools` (templates routes);
* `checkPeopleInDB`, `peopleFinderShortCircuit` — `PeopleFinder.onRequest` /
  `PeopleFinder.checkPeopleInDB`;
* `checkEmailsInDB`, `emailFinderShortCircuit` — `EmailFinder.onRequest` /
  `EmailFinder.checkEmailsInDB`;
* `handleTemplateSelect`   — the frontend `PersonCard.handleTemplateSelect`;
* `populateCompanies`, `populateCompaniesRoute`
  — `applyo-worker/src/lib/vectorize.ts` / `VectorizePopulateCompaniesRoute`.

External services (the Exa search API, the OpenAI model call, `JSON.parse`,
and the utility module `lib/utils.ts`, which is not part of the sources) are
modelled as function parameters; the theorems quantify over them.
-/

namespace Outflow

/-! ## JavaScript-semantics helpers -/

/-- SQLite `LOWER`: ASCII-only lower-casing (used by the raw `LOWER(?)` SQL
comparisons in the agents). -/
def asciiLowerChar (c : Char) : Char :=
  if 'A' ≤ c ∧ c ≤ 'Z' then Char.ofNat (c.toNat + 32) else c

def asciiLower (s : String) : String :=
  ⟨s.data.map asciiLowerChar⟩

/-- JS `x || d` for a possibly-missing string `x`: `null`/`undefined` and the
empty string are falsy. -/
def jsFalsyOr (x : Option String) (d : String) : String :=
  match x with
  | none => d
  | some s => if s = "" then d else s

/-- JS `[...new Set(xs)]`: removes duplicates keeping the first occurrence of
each element, preserving order. -/
def dedupFirstGo {α : Type} [DecidableEq α] (seen : List α) : List α → List α
  | [] => []
  | x :: xs => if x ∈ seen then dedupFirstGo seen xs else x :: dedupFirstGo (x :: seen) xs

def dedupFirst {α : Type} [DecidableEq α] (l : List α) : List α :=
  dedupFirstGo [] l

theorem mem_dedupFirstGo {α : Type} [DecidableEq α] (l : List α) :
    ∀ (seen : List α) (x : α), x ∈ dedupFirstGo seen l → x ∈ l ∧ x ∉ seen := by
  induction l with
  | nil => intro seen x h; simp [dedupFirstGo] at h
  | cons y ys ih =>
    intro seen x h
    by_cases hy : y ∈ seen
    · simp only [dedupFirstGo, if_pos hy] at h
      rcases ih seen x h with ⟨h1, h2⟩
      exact ⟨List.mem_cons_of_mem _ h1, h2⟩
    · simp only [dedupFirstGo, if_neg hy] at h
      rcases List.mem_cons.1 h with h' | h'
      · exact ⟨by simp [h'], by simpa [h'] using hy⟩
      · rcases ih (y :: seen) x h' with ⟨h1, h2⟩
        refine ⟨List.mem_cons_of_mem _ h1, fun hc => h2 ?_⟩
        exact List.mem_cons_of_mem _ hc

theorem mem_of_mem_dedupFirst {α : Type} [DecidableEq α] {l : List α} {x : α}
    (h : x ∈ dedupFirst l) : x ∈ l :=
  (mem_dedupFirstGo l [] x h).1

theorem nodup_dedupFirstGo {α : Type} [DecidableEq α] (seen l : List α) :
    (dedupFirstGo seen l).Nodup := by
  induction l generalizing seen with
  | nil => simp [dedupFirstGo]
  | cons y ys ih =>
    by_cases hy : y ∈ seen
    · simpa [dedupFirstGo, if_pos hy] using ih seen
    · simp only [dedupFirstGo, if_neg hy]
      refine List.nodup_cons.2 ⟨fun hc => ?_, ih (y :: seen)⟩
      exact (mem_dedupFirstGo ys (y :: seen) y hc).2 (List.mem_cons_self _ _)

theorem nodup_dedupFirst {α : Type} [DecidableEq α] (l : List α) :
    (dedupFirst l).Nodup :=
  nodup_dedupFirstGo [] l

theorem dedupFirst_cons {α : Type} [DecidableEq α] (x : α) (l : List α) :
    dedupFirst (x :: l) = x :: dedupFirstGo [x] l := by
  simp [dedupFirst, dedupFirstGo]

/-- JS `s.trim()`: strips whitespace from both ends.  (Defined on the
character list so that it evaluates inside the kernel; `String.trim` is
byte-position based and does not reduce.) -/
def jsTrim (s : String) : String :=
  ⟨((s.data.dropWhile Char.isWhitespace).reverse.dropWhile Char.isWhitespace).reverse⟩

/-- JS `String.prototype.replace` with a global literal pattern: scans left to
right, replacing non-overlapping occurrences of `pat` by `rep`. The fuel
argument is the length of the scanned list. -/
def replaceAllGo (pat rep : List Char) : Nat → List Char → List Char
  | 0, cs => cs
  | _ + 1, [] => []
  | n + 1, c :: cs =>
    if pat ≠ [] ∧ pat.isPrefixOf (c :: cs) then
      rep ++ replaceAllGo pat rep n ((c :: cs).drop pat.length)
    else
      c :: replaceAllGo pat rep n cs

def jsReplaceAll (s pat rep : String) : String :=
  ⟨replaceAllGo pat.data rep.data s.data.length s.data⟩

/-! ## emailFinder tool (`tools/searchWeb.ts`, `emailFinder.execute`)

The tool's search phase only assembles prompt context; the claims concern the
phase after the `generateObject` call.  `extraction = none` models the
`generateObject` call throwing (the `catch` at the "LLM extraction failed"
branch); `VerifyOutcome.verr` models `verifyEmail` throwing. -/

structure ExtractedData where
  emails : List String
  employee_title : String
deriving DecidableEq, Repr

inductive VerifyOutcome where
  | status (s : String)
  | verr
deriving DecidableEq, Repr

structure EmailFinderOut where
  emails : List String
  employee_title : String
  verification_summary : String
deriving DecidableEq, Repr

/-- The part of `emailFinder.execute` from "2. INTELLIGENT EXTRACTION"
onwards: on extraction failure return the empty result; otherwise dedup the
candidates (`[...new Set(...)]`), keep those `verifyEmail` classifies as
`"valid"` (a verification throw counts as not valid), and return at most the
first 3 (`verifiedEmails.slice(0, 3)`). -/
def emailFinderFinish (extraction : Option ExtractedData)
    (verify : String → VerifyOutcome) : EmailFinderOut :=
  match extraction with
  | none => ⟨[], "", "Extraction failed"⟩
  | some d =>
    let uniqueEmails := dedupFirst d.emails
    let verifiedEmails :=
      uniqueEmails.filter (fun e => decide (verify e = VerifyOutcome.status "valid"))
    ⟨verifiedEmails.take 3, d.employee_title,
      toString verifiedEmails.length ++ " valid out of "
        ++ toString uniqueEmails.length ++ " candidates"⟩

/-- C1: the emails returned by the emailFinder tool are a duplicate-free list
of at most 3 addresses, each drawn from the extracted candidates and verified
`"valid"`; when extraction fails the result is the fixed empty-email record. -/
theorem emailFinder_emails_verified (extraction : Option ExtractedData)
    (verify : String → VerifyOutcome) :
    (emailFinderFinish extraction verify).emails.length ≤ 3 ∧
    (emailFinderFinish extraction verify).emails.Nodup ∧
    (∀ e ∈ (emailFinderFinish extraction verify).emails,
      (∃ d, extraction = some d ∧ e ∈ d.emails) ∧
        verify e = VerifyOutcome.status "valid") ∧
    (extraction = none →
      emailFinderFinish extraction verify = ⟨[], "", "Extraction failed"⟩) := by
  cases extraction with
  | none => simp [emailFinderFinish]
  | some d =>
    refine ⟨?_, ?_, ?_, by simp⟩
    · exact List.length_take_le 3 _
    · exact List.Nodup.sublist (List.take_sublist _ _)
        ((nodup_dedupFirst d.emails).filter _)
    · intro e he
      simp only [emailFinderFinish] at he
      have h1 := List.mem_of_mem_take he
      have h2 := List.mem_filter.1 h1
      refine ⟨⟨d, rfl, mem_of_mem_dedupFirst h2.1⟩, ?_⟩
      exact of_decide_eq_true h2.2

theorem emailFinder_emails_verified_witness :
    (emailFinderFinish (some ⟨["a@x.io", "a@x.io", "b@x.io"], "CEO"⟩)
        (fun e => if e = "a@x.io" then VerifyOutcome.status "valid"
                  else VerifyOutcome.status "invalid")).emails.length ≤ 3 ∧
    (emailFinderFinish (some ⟨["a@x.io", "a@x.io", "b@x.io"], "CEO"⟩)
        (fun e => if e = "a@x.io" then VerifyOutcome.status "valid"
                  else VerifyOutcome.status "invalid")).emails.Nodup ∧
    (∀ e ∈ (emailFinderFinish (some ⟨["a@x.io", "a@x.io", "b@x.io"], "CEO"⟩)
        (fun e => if e = "a@x.io" then VerifyOutcome.status "valid"
                  else VerifyOutcome.status "invalid")).emails,
      (∃ d, (some ⟨["a@x.io", "a@x.io", "b@x.io"], "CEO"⟩ : Option ExtractedData)
          = some d ∧ e ∈ d.emails) ∧
        (if e = "a@x.io" then VerifyOutcome.status "valid"
         else VerifyOutcome.status "invalid") = VerifyOutcome.status "valid") ∧
    ((some ⟨["a@x.io", "a@x.io", "b@x.io"], "CEO"⟩ : Option ExtractedData) = none →
      emailFinderFinish (some ⟨["a@x.io", "a@x.io", "b@x.io"], "CEO"⟩)
        (fun e => if e = "a@x.io" then VerifyOutcome.status "valid"
                  else VerifyOutcome.status "invalid") = ⟨[], "", "Extraction failed"⟩) :=
  emailFinder_emails_verified
    (some ⟨["a@x.io", "a@x.io", "b@x.io"], "CEO"⟩)
    (fun e => if e = "a@x.io" then VerifyOutcome.status "valid"
              else VerifyOutcome.status "invalid")

/-! ## searchWeb tool (`tools/searchWeb.ts`, `searchWeb.execute`)

The outbound `exa.searchAndContents` call is modelled by an `ExaOutcome`
parameter: `ok rs` for a successful response, `exaErr` for a throw (caught by
the tool's `try/catch`).  Exa is called with `numResults: 3`; that contract
(`rs.length ≤ 3`) is a hypothesis of the theorem. -/

structure ExaResult where
  /-- `r.title` is `string | null`; the JS fallback `r.title || "No title"`
  also treats the empty string as missing. -/
  title : Option String
  url : String
  text : String
deriving DecidableEq, Repr

inductive ExaOutcome where
  | ok (rs : List ExaResult)
  | exaErr
deriving DecidableEq, Repr

structure SearchResultEntry where
  title : String
  url : String
  content : String
deriving DecidableEq, Repr

structure SearchWebOut where
  results : List SearchResultEntry
deriving DecidableEq, Repr

/-- `searchWeb.execute`: throws (`Except.error`) exactly when `EXA_API_KEY`
is missing — the JS check `!env?.EXA_API_KEY` also treats an empty string as
missing; otherwise maps the Exa results (with the `"No title"` fallback) or
returns `{ results: [] }` when the Exa call threw. -/
def searchWebExecute (exaApiKey : Option String) (exa : ExaOutcome) :
    Except String SearchWebOut :=
  if exaApiKey = none ∨ exaApiKey = some "" then
    .error "Search tool - EXA_API_KEY is missing"
  else
    .ok (match exa with
      | .ok rs =>
        ⟨rs.map (fun r => ⟨jsFalsyOr r.title "No title", r.url, r.text⟩)⟩
      | .exaErr => ⟨[]⟩)

/-- C7: given Exa's `numResults: 3` contract, the tool returns at most 3
entries, each carrying the source url/content and a never-empty title
(`"No title"` when Exa gave none); an Exa throw yields `{ results: [] }`;
and the tool itself fails only on a missing (falsy) `EXA_API_KEY`. -/
theorem searchWeb_results_bounded (exaApiKey : Option String) (exa : ExaOutcome)
    (hexa : ∀ rs, exa = ExaOutcome.ok rs → rs.length ≤ 3) :
    ((searchWebExecute exaApiKey exa).isOk ↔
      ¬(exaApiKey = none ∨ exaApiKey = some "")) ∧
    (∀ out, searchWebExecute exaApiKey exa = .ok out →
      out.results.length ≤ 3 ∧
      (∀ e ∈ out.results,
        e.title ≠ "" ∧ ∃ r ∈ (match exa with | .ok rs => rs | .exaErr => []),
          e.url = r.url ∧ e.content = r.text ∧ e.title = jsFalsyOr r.title "No title") ∧
      (exa = ExaOutcome.exaErr → out.results = [])) := by
  by_cases hk : exaApiKey = none ∨ exaApiKey = some ""
  · constructor
    · simp [searchWebExecute, hk, Except.isOk, Except.toBool]
    · intro out hout
      simp [searchWebExecute, hk] at hout
  · constructor
    · simp [searchWebExecute, hk, Except.isOk, Except.toBool]
    · intro out hout
      cases exa with
      | exaErr =>
        simp only [searchWebExecute, if_neg hk, Except.ok.injEq] at hout
        subst hout
        simp
      | ok rs =>
        simp only [searchWebExecute, if_neg hk, Except.ok.injEq] at hout
        subst hout
        refine ⟨by simpa using hexa rs rfl, ?_, by simp⟩
        intro e he
        rcases List.mem_map.1 he with ⟨r, hr, rfl⟩
        refine ⟨?_, r, hr, rfl, rfl, rfl⟩
        cases r.title with
        | none => simp [jsFalsyOr]
        | some t =>
          by_cases ht : t = "" <;> simp [jsFalsyOr, ht]

theorem searchWeb_results_bounded_witness :
    ((searchWebExecute (some "key")
        (ExaOutcome.ok [⟨none, "https://a.io", "text a"⟩])).isOk ↔
      ¬((some "key" : Option String) = none ∨ (some "key" : Option String) = some "")) ∧
    (∀ out, searchWebExecute (some "key")
        (ExaOutcome.ok [⟨none, "https://a.io", "text a"⟩]) = .ok out →
      out.results.length ≤ 3 ∧
      (∀ e ∈ out.results,
        e.title ≠ "" ∧ ∃ r ∈ [(⟨none, "https://a.io", "text a"⟩ : ExaResult)],
          e.url = r.url ∧ e.content = r.text ∧ e.title = jsFalsyOr r.title "No title") ∧
      (ExaOutcome.ok [(⟨none, "https://a.io", "text a"⟩ : ExaResult)] = ExaOutcome.exaErr →
        out.results = [])) := by
  have h := searchWeb_results_bounded (some "key")
    (ExaOutcome.ok [⟨none, "https://a.io", "text a"⟩])
    (by intro rs hrs; cases hrs; decide)
  exact h

/-! ## Template prefill (frontend `PersonCard.handleTemplateSelect`) -/

/-- JS `s.split(' ')[0]`: everything before the first space (the whole string
when there is no space; the empty string for an empty or space-led name). -/
def jsFirstWord (s : String) : String :=
  ⟨s.data.takeWhile (fun c => decide (c ≠ ' '))⟩

/-- The substitution the claim describes, applied to one stored text: each
occurrence of the `\x7b\x7bfirstName\x7d\x7d` placeholder replaced by
`firstName`, then each occurrence of `\x7b\x7bcompany\x7d\x7d` replaced by
`company` — the order used by `handleTemplateSelect` for the body. -/
def substPlaceholders (firstName company s : String) : String :=
  jsReplaceAll (jsReplaceAll s "\x7b\x7bfirstName\x7d\x7d" firstName)
    "\x7b\x7bcompany\x7d\x7d" company

/-- `handleTemplateSelect` from the frontend `PersonCard`: prefills the
compose fields from a stored template.  The subject is copied verbatim
(`setEmailSubject(template.subject)`); only the body goes through the
placeholder replacement, with `firstName = person.name.split(' ')[0]` and
`company = companyName || 'your company'`. -/
def handleTemplateSelect (personName : String) (companyName : Option String)
    (tmplSubject tmplBody : String) : String × String :=
  let firstName := jsFirstWord personName
  let company := jsFalsyOr companyName "your company"
  (tmplSubject, substPlaceholders firstName company tmplBody)

/-- C2 counterexample: the claim says substitution is applied to the subject
too; on a template whose subject contains `\x7b\x7bfirstName\x7d\x7d` the
prefields keep the subject verbatim, not substituted. -/
theorem templateSelect_subject_not_substituted :
    (handleTemplateSelect "John Smith" (some "Acme")
        "Hello \x7b\x7bfirstName\x7d\x7d" "Hi \x7b\x7bfirstName\x7d\x7d").1 ≠
      substPlaceholders (jsFirstWord "John Smith")
        (jsFalsyOr (some "Acme") "your company") "Hello \x7b\x7bfirstName\x7d\x7d" := by
  decide

/-- C2 (amended): the subject is prefilled verbatim and only the body gets the
placeholder substitution — `\x7b\x7bfirstName\x7d\x7d` replaced by the part of
the person's name before the first space and `\x7b\x7bcompany\x7d\x7d` by the
company name (or `"your company"` when the company name is absent or empty). -/
theorem templateSelect_body_substituted (personName : String)
    (companyName : Option String) (tmplSubject tmplBody : String) :
    (handleTemplateSelect personName companyName tmplSubject tmplBody).1 = tmplSubject ∧
    (handleTemplateSelect personName companyName tmplSubject tmplBody).2 =
      jsReplaceAll (jsReplaceAll tmplBody "\x7b\x7bfirstName\x7d\x7d" (jsFirstWord personName))
        "\x7b\x7bcompany\x7d\x7d" (jsFalsyOr companyName "your company") :=
  ⟨rfl, rfl⟩

/-! ## Relational store (`db/companies.schema.ts`, `db/companies.ts`)

`company_profiles` and `employees` rows; the D1 tables are modelled as lists
in table order (`.limit(1).get()` returns the first matching row, autoincrement
ids are drawn from `nextCompanyId`/`nextEmployeeId`). -/

structure CompanyRow where
  id : Nat
  companyName : String
  website : Option String
  description : Option String
  techStack : Option String
  industry : Option String
  yearFounded : Option Int
  headquarters : Option String
  revenue : Option String
  funding : Option String
  employeeCountMin : Option Int
  employeeCountMax : Option Int
deriving DecidableEq, Repr

structure EmployeeRow where
  id : Nat
  employeeName : String
  employeeTitle : Option String
  email : Option String
  companyId : Nat
deriving DecidableEq, Repr

structure OrchDB where
  companies : List CompanyRow
  employees : List EmployeeRow
  nextCompanyId : Nat
  nextEmployeeId : Nat
deriving DecidableEq, Repr

/-- The optional extra company fields of `upsertCompany`.  JS distinguishes a
missing field from an explicit `null`, but both lead to the same stores (a
`null` entry of `updateData` is filtered out before the UPDATE, and the insert
uses `?.trim() || null`), so each field is a single `Option`. -/
structure AdditionalData where
  description : Option String := none
  techStack : Option String := none
  industry : Option String := none
  yearFounded : Option Int := none
  headquarters : Option String := none
  revenue : Option String := none
  funding : Option String := none
  employeeCountMin : Option Int := none
  employeeCountMax : Option Int := none
deriving DecidableEq, Repr

/-- `s.trim()` mapped through `|| null`: a whitespace-only string becomes
`null`. -/
def trimOrNull (x : Option String) : Option String :=
  x.bind (fun s => if jsTrim s = "" then none else some (jsTrim s))

/-- JS `n || null` for numbers: `0` is falsy. -/
def intOrNull (x : Option Int) : Option Int :=
  x.bind (fun n => if n = 0 then none else some n)

/-- The WHERE clause of `upsertCompany`: `LOWER(company_name) = LOWER(name)`,
OR `website = website.trim()` when a non-blank website was passed. -/
def companyMatches (normalizedName : String) (website : Option String)
    (r : CompanyRow) : Bool :=
  decide (asciiLower r.companyName = asciiLower normalizedName) ||
    (match website with
     | some w => if jsTrim w = "" then false else decide (r.website = some (jsTrim w))
     | none => false)

/-- The UPDATE branch of `upsertCompany`: apply `fieldsToUpdate`, i.e. every
entry of `updateData` that is neither `null` nor `undefined`.  String fields
enter `updateData` as `?.trim() || null`, so a field is written exactly when
the new value trims to something non-empty; the three numeric fields are
written whenever provided (even `0`, which survives the `!== null` filter). -/
def applyCompanyUpdate (website : Option String) (ad : AdditionalData)
    (r : CompanyRow) : CompanyRow :=
  { r with
    website := match website with
      | some w => if jsTrim w = "" then r.website else some (jsTrim w)
      | none => r.website
    description := (trimOrNull ad.description).or r.description
    techStack := (trimOrNull ad.techStack).or r.techStack
    industry := (trimOrNull ad.industry).or r.industry
    yearFounded := match ad.yearFounded with
      | some n => some n
      | none => r.yearFounded
    headquarters := (trimOrNull ad.headquarters).or r.headquarters
    revenue := (trimOrNull ad.revenue).or r.revenue
    funding := (trimOrNull ad.funding).or r.funding
    employeeCountMin := match ad.employeeCountMin with
      | some n => some n
      | none => r.employeeCountMin
    employeeCountMax := match ad.employeeCountMax with
      | some n => some n
      | none => r.employeeCountMax }

/-- A field written through `trimOrNull … |>.or old` is never the empty
string.  -/
theorem trimOrNull_or_ne_empty (x : Option String) (d : Option String)
    (hd : d ≠ some "") : (trimOrNull x).or d ≠ some "" := by
  cases x with
  | none => simpa [trimOrNull, Option.or] using hd
  | some s =>
    by_cases hs : jsTrim s = ""
    · simpa [trimOrNull, hs, Option.or] using hd
    · simp [trimOrNull, hs, Option.or]

/-- `upsertCompany` (`db/companies.ts`): throws when the name is blank, else
updates the first row matching the name (or the website), returning its id,
or inserts a fresh row. -/
def upsertCompany (db : OrchDB) (companyName : String) (website : Option String)
    (ad : AdditionalData) : Except String (Nat × OrchDB) :=
  if jsTrim companyName = "" then
    .error "Company name is required"
  else
    let normalizedName := jsTrim companyName
    match db.companies.find? (companyMatches normalizedName website) with
    | some existing =>
      .ok (existing.id,
        { db with
          companies := db.companies.map (fun r =>
            if r.id = existing.id then applyCompanyUpdate website ad r else r) })
    | none =>
      let row : CompanyRow :=
        { id := db.nextCompanyId
          companyName := normalizedName
          website := trimOrNull website
          description := trimOrNull ad.description
          techStack := trimOrNull ad.techStack
          industry := trimOrNull ad.industry
          yearFounded := intOrNull ad.yearFounded
          headquarters := trimOrNull ad.headquarters
          revenue := trimOrNull ad.revenue
          funding := trimOrNull ad.funding
          employeeCountMin := intOrNull ad.employeeCountMin
          employeeCountMax := intOrNull ad.employeeCountMax }
      .ok (row.id,
        { db with
          companies := db.companies ++ [row]
          nextCompanyId := db.nextCompanyId + 1 })

/-- The WHERE clause of `upsertEmployee`: case-insensitive name match within
the same company. -/
def employeeMatches (normalizedName : String) (companyId : Nat)
    (r : EmployeeRow) : Bool :=
  decide (asciiLower r.employeeName = asciiLower normalizedName) &&
    decide (r.companyId = companyId)

/-- The UPDATE branch of `upsertEmployee`: title and email are written only
when the new value trims to something non-empty. -/
def applyEmployeeUpdate (employeeTitle email : Option String)
    (r : EmployeeRow) : EmployeeRow :=
  { r with
    employeeTitle := (trimOrNull employeeTitle).or r.employeeTitle
    email := (trimOrNull email).or r.email }

/-- `upsertEmployee` (`db/companies.ts`). -/
def upsertEmployee (db : OrchDB) (companyId : Nat) (employeeName : String)
    (employeeTitle email : Option String) : Except String (Nat × OrchDB) :=
  if jsTrim employeeName = "" then
    .error "Employee name is required"
  else
    let normalizedName := jsTrim employeeName
    match db.employees.find? (employeeMatches normalizedName companyId) with
    | some existing =>
      .ok (existing.id,
        { db with
          employees := db.employees.map (fun r =>
            if r.id = existing.id then applyEmployeeUpdate employeeTitle email r else r) })
    | none =>
      let row : EmployeeRow :=
        { id := db.nextEmployeeId
          employeeName := normalizedName
          employeeTitle := trimOrNull employeeTitle
          email := trimOrNull email
          companyId := companyId }
      .ok (row.id,
        { db with
          employees := db.employees ++ [row]
          nextEmployeeId := db.nextEmployeeId + 1 })

/-! ### Upsert invariants (C9) -/

/-- An optional text column after an upsert: either untouched, or overwritten
with a non-empty value (never with `null` or `""`). -/
def optPreservedStr (old new : Option String) : Prop :=
  new = old ∨ ∃ s, new = some s ∧ s ≠ ""

/-- An optional numeric column after an upsert: either untouched or
overwritten with a (non-null) number. -/
def optPreservedInt (old new : Option Int) : Prop :=
  new = old ∨ ∃ n, new = some n

/-- Row-wise effect of `upsertCompany` on an existing table: identity and key
columns intact, every nullable column either untouched or set to a real
value. -/
def companyRowPreserved (old new : CompanyRow) : Prop :=
  new.id = old.id ∧ new.companyName = old.companyName ∧
  optPreservedStr old.website new.website ∧
  optPreservedStr old.description new.description ∧
  optPreservedStr old.techStack new.techStack ∧
  optPreservedStr old.industry new.industry ∧
  optPreservedInt old.yearFounded new.yearFounded ∧
  optPreservedStr old.headquarters new.headquarters ∧
  optPreservedStr old.revenue new.revenue ∧
  optPreservedStr old.funding new.funding ∧
  optPreservedInt old.employeeCountMin new.employeeCountMin ∧
  optPreservedInt old.employeeCountMax new.employeeCountMax

def employeeRowPreserved (old new : EmployeeRow) : Prop :=
  new.id = old.id ∧ new.employeeName = old.employeeName ∧
  new.companyId = old.companyId ∧
  optPreservedStr old.employeeTitle new.employeeTitle ∧
  optPreservedStr old.email new.email

theorem optPreservedStr_or_trim (x : Option String) (old : Option String) :
    optPreservedStr old ((trimOrNull x).or old) := by
  cases x with
  | none => exact Or.inl rfl
  | some s =>
    by_cases hs : jsTrim s = ""
    · exact Or.inl (by simp [trimOrNull, hs, Option.or])
    · exact Or.inr ⟨jsTrim s, by simp [trimOrNull, hs, Option.or], hs⟩

theorem companyRowPreserved_refl (r : CompanyRow) : companyRowPreserved r r := by
  refine ⟨rfl, rfl, ?_, ?_, ?_, ?_, ?_, ?_, ?_, ?_, ?_, ?_⟩ <;>
    exact Or.inl rfl

theorem applyCompanyUpdate_preserved (website : Option String)
    (ad : AdditionalData) (r : CompanyRow) :
    companyRowPreserved r (applyCompanyUpdate website ad r) := by
  refine ⟨rfl, rfl, ?_, ?_, ?_, ?_, ?_, ?_, ?_, ?_, ?_, ?_⟩
  · show optPreservedStr r.website _
    cases website with
    | none => exact Or.inl rfl
    | some w =>
      by_cases hw : jsTrim w = ""
      · exact Or.inl (by simp [applyCompanyUpdate, hw])
      · exact Or.inr ⟨jsTrim w, by simp [applyCompanyUpdate, hw], hw⟩
  · exact optPreservedStr_or_trim ad.description r.description
  · exact optPreservedStr_or_trim ad.techStack r.techStack
  · exact optPreservedStr_or_trim ad.industry r.industry
  · show optPreservedInt r.yearFounded _
    cases h : ad.yearFounded with
    | none => exact Or.inl (by simp [applyCompanyUpdate, h])
    | some n => exact Or.inr ⟨n, by simp [applyCompanyUpdate, h]⟩
  · exact optPreservedStr_or_trim ad.headquarters r.headquarters
  · exact optPreservedStr_or_trim ad.revenue r.revenue
  · exact optPreservedStr_or_trim ad.funding r.funding
  · show optPreservedInt r.employeeCountMin _
    cases h : ad.employeeCountMin with
    | none => exact Or.inl (by simp [applyCompanyUpdate, h])
    | some n => exact Or.inr ⟨n, by simp [applyCompanyUpdate, h]⟩
  · show optPreservedInt r.employeeCountMax _
    cases h : ad.employeeCountMax with
    | none => exact Or.inl (by simp [applyCompanyUpdate, h])
    | some n => exact Or.inr ⟨n, by simp [applyCompanyUpdate, h]⟩

theorem employeeRowPreserved_refl (r : EmployeeRow) : employeeRowPreserved r r :=
  ⟨rfl, rfl, rfl, Or.inl rfl, Or.inl rfl⟩

theorem applyEmployeeUpdate_preserved (title email : Option String)
    (r : EmployeeRow) : employeeRowPreserved r (applyEmployeeUpdate title email r) :=
  ⟨rfl, rfl, rfl, optPreservedStr_or_trim title r.employeeTitle,
    optPreservedStr_or_trim email r.email⟩

theorem forall₂_map_self {α : Type} {P : α → α → Prop} (f : α → α)
    (l : List α) (h : ∀ r ∈ l, P r (f r)) : List.Forall₂ P l (l.map f) := by
  induction l with
  | nil => exact List.Forall₂.nil
  | cons x xs ih =>
    exact List.Forall₂.cons (h x (List.mem_cons_self _ _))
      (ih fun r hr => h r (List.mem_cons_of_mem _ hr))

/-- C9: when a row already matches (same case-insensitive trimmed name, or —
for companies — same website; for employees, same name within the company),
the upserts insert nothing: the table keeps its length, the matched row's id
is returned, and every column of every row is either untouched or set to a
non-null, non-empty value — a stored non-null field is never overwritten with
`null` or `""`. -/
theorem upserts_never_duplicate_nor_blank :
    (∀ (db : OrchDB) (companyName : String) (website : Option String)
        (ad : AdditionalData) (ex : CompanyRow),
      jsTrim companyName ≠ "" →
      db.companies.find? (companyMatches (jsTrim companyName) website) = some ex →
      ∃ db', upsertCompany db companyName website ad = .ok (ex.id, db') ∧
        db'.companies.length = db.companies.length ∧
        db'.employees = db.employees ∧
        List.Forall₂ companyRowPreserved db.companies db'.companies) ∧
    (∀ (db : OrchDB) (companyId : Nat) (employeeName : String)
        (title email : Option String) (ex : EmployeeRow),
      jsTrim employeeName ≠ "" →
      db.employees.find? (employeeMatches (jsTrim employeeName) companyId) = some ex →
      ∃ db', upsertEmployee db companyId employeeName title email = .ok (ex.id, db') ∧
        db'.employees.length = db.employees.length ∧
        db'.companies = db.companies ∧
        List.Forall₂ employeeRowPreserved db.employees db'.employees) := by
  constructor
  · intro db companyName website ad ex hname hfind
    refine ⟨{ db with companies := db.companies.map (fun r =>
        if r.id = ex.id then applyCompanyUpdate website ad r else r) },
      ?_, by simp, rfl, ?_⟩
    · simp only [upsertCompany, if_neg hname, hfind]
    · refine forall₂_map_self _ _ fun r _ => ?_
      by_cases hid : r.id = ex.id
      · simpa [hid] using applyCompanyUpdate_preserved website ad r
      · simpa [hid] using companyRowPreserved_refl r
  · intro db companyId employeeName title email ex hname hfind
    refine ⟨{ db with employees := db.employees.map (fun r =>
        if r.id = ex.id then applyEmployeeUpdate title email r else r) },
      ?_, by simp, rfl, ?_⟩
    · simp only [upsertEmployee, if_neg hname, hfind]
    · refine forall₂_map_self _ _ fun r _ => ?_
      by_cases hid : r.id = ex.id
      · simpa [hid] using applyEmployeeUpdate_preserved title email r
      · simpa [hid] using employeeRowPreserved_refl r

def upsertWitnessCompanyRow : CompanyRow :=
  { id := 7, companyName := "Acme", website := some "https://acme.io"
    description := some "d", techStack := none, industry := none
    yearFounded := some 2001, headquarters := none, revenue := none
    funding := none, employeeCountMin := none, employeeCountMax := none }

def upsertWitnessEmployeeRow : EmployeeRow :=
  { id := 4, employeeName := "Jane Doe", employeeTitle := some "CEO"
    email := some "jane@acme.io", companyId := 7 }

def upsertWitnessDB : OrchDB :=
  { companies := [upsertWitnessCompanyRow]
    employees := [upsertWitnessEmployeeRow]
    nextCompanyId := 8, nextEmployeeId := 5 }

theorem upserts_never_duplicate_nor_blank_witness :
    (∃ db', upsertCompany upsertWitnessDB "ACME " none
          { description := some " " } = .ok (7, db') ∧
        db'.companies.length = upsertWitnessDB.companies.length ∧
        db'.employees = upsertWitnessDB.employees ∧
        List.Forall₂ companyRowPreserved upsertWitnessDB.companies db'.companies) ∧
    (∃ db', upsertEmployee upsertWitnessDB 7 "jane doe" (some "") none
          = .ok (4, db') ∧
        db'.employees.length = upsertWitnessDB.employees.length ∧
        db'.companies = upsertWitnessDB.companies ∧
        List.Forall₂ employeeRowPreserved upsertWitnessDB.employees db'.employees) := by
  constructor
  · exact upserts_never_duplicate_nor_blank.1 upsertWitnessDB "ACME " none
      { description := some " " } upsertWitnessCompanyRow (by decide) (by decide)
  · exact upserts_never_duplicate_nor_blank.2 upsertWitnessDB 7 "jane doe"
      (some "") none upsertWitnessEmployeeRow (by decide) (by decide)

/-! ## Orchestrator (`agents/peoplefinder.ts`, `Orchestrator.onRequest`)

Everything from `let finalResult; try { … }` onwards.  The model text
produced by `generateText` is the `text` argument; `JSON.parse` (plus the
guard rejecting a `null`/non-object root, whose property access throws into
the same catch) is the `parse` parameter; `extractDomain` from the absent
`lib/utils.ts` is the `extractDomainFn` parameter; `dbFails` models the D1
binding throwing on first use (caught by the inner `catch (dbError)`). -/

def jsTrimLeftL (cs : List Char) : List Char :=
  cs.dropWhile Char.isWhitespace

def jsTrimRightL (cs : List Char) : List Char :=
  (cs.reverse.dropWhile Char.isWhitespace).reverse

def fenceMarker : List Char := "```".data

def fenceJson : List Char := "```json".data

/-- `cleanText.replace(/\s*```$/, '')`: when the text ends in a backtick
fence, drop it together with the whitespace just before it. -/
def stripFenceSuffix (cs : List Char) : List Char :=
  if fenceMarker.isSuffixOf cs then jsTrimRightL (cs.take (cs.length - 3)) else cs

/-- `cleanText.match(/\{[\s\S]*\}/)`: the (greedy) match runs from the first
`\x7b` to the last `\x7d`; when there is no such span the text is left
unchanged. -/
def braceSlice (cs : List Char) : List Char :=
  match cs.findIdx? (fun c => decide (c = '\x7b')),
      cs.reverse.findIdx? (fun c => decide (c = '\x7d')) with
  | some i, some j' =>
    let j := cs.length - 1 - j'
    if i < j then (cs.drop i).take (j - i + 1) else cs
  | _, _ => cs

/-- The Orchestrator's JSON-extraction step: trim, strip a leading
```` ```json ````/```` ``` ```` fence and its trailing fence, then cut to the
first-`\x7b`-to-last-`\x7d` span. -/
def extractClean (s : String) : String :=
  let t := (jsTrim s).data
  let t :=
    if fenceJson.isPrefixOf t then
      stripFenceSuffix (jsTrimLeftL (t.drop fenceJson.length))
    else if fenceMarker.isPrefixOf t then
      stripFenceSuffix (jsTrimLeftL (t.drop fenceMarker.length))
    else t
  ⟨braceSlice t⟩

/-- The `emails` property of a parsed person: either not an array
(`Array.isArray` fails) or a list of address strings. -/
inductive EmailsField where
  | notList
  | list (es : List String)
deriving DecidableEq, Repr

structure PersonJson where
  /-- `person.name`; `""` encodes a missing/falsy name. -/
  name : String
  /-- `person.role`; `""` encodes a missing/falsy role (`person.role || null`). -/
  role : String
  emails : EmailsField
deriving DecidableEq, Repr

/-- The filter `person.emails && Array.isArray(person.emails) &&
person.emails.length > 0`. -/
def personKeep (p : PersonJson) : Bool :=
  match p.emails with
  | .list es => !es.isEmpty
  | .notList => false

/-- The `people` property of the parsed result: an actual array, or any other
JSON value, of which the guard `!finalResult.people?.length` observes only the
truthiness of its `length` property (`false` also covers a missing `people`). -/
inductive PeopleField where
  | nonArray (lenTruthy : Bool)
  | arr (ps : List PersonJson)
deriving DecidableEq, Repr

/-- The parsed model output, with each metadata field already taken through
the `finalResult.x || finalResult.x_snake ? … : null` normalisations the
Orchestrator applies (so `company = ""` encodes a falsy company and the
`Option` fields encode `null`). -/
structure FinalResult where
  company : String
  website : Option String
  description : Option String
  techStack : Option String
  industry : Option String
  yearFounded : Option Int
  headquarters : Option String
  revenue : Option String
  funding : Option String
  employeeCountMin : Option Int
  employeeCountMax : Option Int
  people : PeopleField
deriving DecidableEq, Repr

inductive ParseOutcome where
  | fail
  | ok (r : FinalResult)
deriving DecidableEq, Repr

def peopleLenTruthy : PeopleField → Bool
  | .nonArray b => b
  | .arr ps => !ps.isEmpty

/-- `finalResult.website || null`. -/
def websiteOrNull (r : FinalResult) : Option String :=
  match r.website with
  | some w => if w = "" then none else some w
  | none => none

/-- The `companyData` object assembled before `upsertCompany`. -/
def adOf (r : FinalResult) : AdditionalData :=
  ⟨r.description, r.techStack, r.industry, r.yearFounded, r.headquarters,
    r.revenue, r.funding, r.employeeCountMin, r.employeeCountMax⟩

/-- `person.role || null`. -/
def roleOrNull (p : PersonJson) : Option String :=
  if p.role = "" then none else some p.role

/-- The `for (const person of finalResult.people)` loop: each person with a
truthy name and a non-empty emails array is upserted with its first email;
an `upsertEmployee` throw aborts the loop (caught by `catch (dbError)`),
keeping the writes made so far. -/
def employeesLoop (companyId : Nat) : List PersonJson → OrchDB → OrchDB
  | [], db => db
  | p :: ps, db =>
    if p.name ≠ "" ∧ personKeep p = true then
      match p.emails with
      | .list (e :: _) =>
        match upsertEmployee db companyId p.name (roleOrNull p) (some e) with
        | .ok (_, db') => employeesLoop companyId ps db'
        | .error _ => db
      | _ => employeesLoop companyId ps db
    else employeesLoop companyId ps db

/-- The inner `try { … } catch (dbError)` block: nothing is saved when the
company name is blank; otherwise the company is upserted and the people loop
runs (for a non-array `people`, `for…of` throws before the first iteration).
`dbFails = true` models the DB binding failing on first use. -/
def orchestratorSave (r : FinalResult) (db : OrchDB) (dbFails : Bool) : OrchDB :=
  if dbFails then db
  else if r.company ≠ "" ∧ jsTrim r.company ≠ "" then
    match upsertCompany db r.company (websiteOrNull r) (adOf r) with
    | .error _ => db
    | .ok (cid, db1) =>
      match r.people with
      | .arr ps => employeesLoop cid ps db1
      | .nonArray _ => db1
  else db

/-- `https://www.google.com/s2/favicons?domain=…&sz=128` when the parsed
website is truthy and `extractDomain` finds a domain. -/
def faviconOf (extractDomainFn : String → Option String) (r : FinalResult) :
    Option String :=
  match r.website with
  | some w =>
    if w = "" then none
    else (extractDomainFn w).map
      (fun d => "https://www.google.com/s2/favicons?domain=" ++ d ++ "&sz=128")
  | none => none

inductive OrchResp where
  /-- 500, body `\x7b"error":"parsing error"\x7d`. -/
  | parsingError
  /-- 200, body `\x7b"message":"no emails found",…\x7d`. -/
  | noEmails
  /-- 200, body `\x7b…finalResult, favicon, state\x7d`. -/
  | result (r : FinalResult) (favicon : Option String)
deriving DecidableEq, Repr

def respStatus : OrchResp → Nat
  | .parsingError => 500
  | .noEmails => 200
  | .result _ _ => 200

/-- The fixed body `JSON.stringify(\x7b error: "parsing error" \x7d)`. -/
def respErrorBody : OrchResp → Option String
  | .parsingError => some "\x7b\"error\":\"parsing error\"\x7d"
  | _ => none

structure OrchEnv where
  parse : String → ParseOutcome
  extractDomainFn : String → Option String
  dbFails : Bool

/-- `Orchestrator.onRequest` after `generateText`: extract/parse, filter the
people to those with emails, short-circuit to "no emails found", otherwise
save (errors caught) and answer with the filtered result plus favicon. -/
def orchestratorFinish (env : OrchEnv) (text : String) (db : OrchDB) :
    OrchResp × OrchDB :=
  match env.parse (extractClean text) with
  | .fail => (.parsingError, db)
  | .ok r0 =>
    let r := match r0.people with
      | .arr ps => { r0 with people := .arr (ps.filter personKeep) }
      | _ => r0
    if peopleLenTruthy r.people = false then (.noEmails, db)
    else
      (.result r (faviconOf env.extractDomainFn r),
        orchestratorSave r db env.dbFails)

/-- C5: the Orchestrator parses the model output through `extractClean`
(trim, fence stripping, first-`\x7b`-to-last-`\x7d` cut) and `JSON.parse`;
whenever that parse throws, the request ends with HTTP 500, the fixed body
`\x7b"error":"parsing error"\x7d`, and an untouched database. -/
theorem orchestrator_parse_failure (parse : String → ParseOutcome)
    (edf : String → Option String) (b : Bool) (text : String) (db : OrchDB)
    (h : parse (extractClean text) = ParseOutcome.fail) :
    orchestratorFinish ⟨parse, edf, b⟩ text db = (OrchResp.parsingError, db) ∧
    respStatus (orchestratorFinish ⟨parse, edf, b⟩ text db).1 = 500 ∧
    respErrorBody (orchestratorFinish ⟨parse, edf, b⟩ text db).1 =
      some "\x7b\"error\":\"parsing error\"\x7d" := by
  simp [orchestratorFinish, h, respStatus, respErrorBody]

theorem orchestrator_parse_failure_witness :
    orchestratorFinish ⟨fun _ => ParseOutcome.fail, fun _ => none, false⟩
        "not json at all" ⟨[], [], 1, 1⟩ = (OrchResp.parsingError, ⟨[], [], 1, 1⟩) ∧
    respStatus (orchestratorFinish ⟨fun _ => ParseOutcome.fail, fun _ => none, false⟩
        "not json at all" ⟨[], [], 1, 1⟩).1 = 500 ∧
    respErrorBody (orchestratorFinish ⟨fun _ => ParseOutcome.fail, fun _ => none, false⟩
        "not json at all" ⟨[], [], 1, 1⟩).1 =
      some "\x7b\"error\":\"parsing error\"\x7d" :=
  orchestrator_parse_failure (fun _ => ParseOutcome.fail) (fun _ => none) false
    "not json at all" ⟨[], [], 1, 1⟩ rfl

/-- C3: when the parsed `people` is an array, every person kept in the
returned result has a non-empty emails array; and when the filter leaves
nobody, the Orchestrator answers 200 "no emails found" with the database
untouched. -/
theorem orchestrator_filtered_people (parse : String → ParseOutcome)
    (edf : String → Option String) (b : Bool) (text : String) (db : OrchDB) :
    (∀ r ps, parse (extractClean text) = ParseOutcome.ok r →
      r.people = PeopleField.arr ps → ps.filter personKeep = [] →
      orchestratorFinish ⟨parse, edf, b⟩ text db = (OrchResp.noEmails, db) ∧
      respStatus OrchResp.noEmails = 200) ∧
    (∀ out fav ps',
      (orchestratorFinish ⟨parse, edf, b⟩ text db).1 = OrchResp.result out fav →
      out.people = PeopleField.arr ps' →
      ∀ p ∈ ps', ∃ es, p.emails = EmailsField.list es ∧ es ≠ []) := by
  constructor
  · intro r ps hparse hpeople hfilter
    refine ⟨?_, rfl⟩
    simp [orchestratorFinish, hparse, hpeople, hfilter, peopleLenTruthy]
  · intro out fav ps' hresp hpeople' p hp
    cases hparse : parse (extractClean text) with
    | fail => simp [orchestratorFinish, hparse] at hresp
    | ok r0 =>
      cases hp0 : r0.people with
      | nonArray lt =>
        by_cases hlt : lt = false
        · simp [orchestratorFinish, hparse, hp0, peopleLenTruthy, hlt] at hresp
        · have hlt' : lt = true := by cases lt <;> simp_all
          simp only [orchestratorFinish, hparse, hp0, hlt', peopleLenTruthy,
            Bool.true_eq_false, if_false, OrchResp.result.injEq] at hresp
          obtain ⟨rfl, -⟩ := hresp
          rw [hp0] at hpeople'
          exact absurd hpeople' (by simp)
      | arr ps0 =>
        by_cases hempty : (ps0.filter personKeep).isEmpty
        · simp [orchestratorFinish, hparse, hp0, peopleLenTruthy, hempty] at hresp
        · simp only [orchestratorFinish, hparse, hp0, peopleLenTruthy,
            Bool.not_eq_false', hempty, if_false, OrchResp.result.injEq] at hresp
          obtain ⟨rfl, -⟩ := hresp
          have hps : ps0.filter personKeep = ps' := by
            have h' : PeopleField.arr (ps0.filter personKeep) = PeopleField.arr ps' :=
              hpeople'
            exact PeopleField.arr.inj h'
          rw [← hps] at hp
          have hk := (List.mem_filter.1 hp).2
          cases hes : p.emails with
          | notList => simp [personKeep, hes] at hk
          | list es =>
            refine ⟨es, rfl, ?_⟩
            simp only [personKeep, hes, Bool.not_eq_true'] at hk
            simpa using hk

def emptyOrchDB : OrchDB := ⟨[], [], 1, 1⟩

def sampleFinalResult : FinalResult :=
  { company := "Acme", website := none, description := none,
    techStack := none, industry := none, yearFounded := none,
    headquarters := none, revenue := none, funding := none,
    employeeCountMin := none, employeeCountMax := none,
    people := PeopleField.arr [⟨"Jane", "CEO", EmailsField.list []⟩] }

def sampleParse : String → ParseOutcome := fun _ => ParseOutcome.ok sampleFinalResult

def noDomain : String → Option String := fun _ => none

theorem orchestrator_filtered_people_witness :
    (∀ r ps, sampleParse (extractClean "x") = ParseOutcome.ok r →
      r.people = PeopleField.arr ps → ps.filter personKeep = [] →
      orchestratorFinish ⟨sampleParse, noDomain, false⟩ "x" emptyOrchDB =
        (OrchResp.noEmails, emptyOrchDB) ∧
      respStatus OrchResp.noEmails = 200) ∧
    (∀ out fav ps',
      (orchestratorFinish ⟨sampleParse, noDomain, false⟩ "x" emptyOrchDB).1 =
        OrchResp.result out fav →
      out.people = PeopleField.arr ps' →
      ∀ p ∈ ps', ∃ es, p.emails = EmailsField.list es ∧ es ≠ []) :=
  orchestrator_filtered_people sampleParse noDomain false "x" emptyOrchDB

/-- C4: with a non-blank company name and at least one named person with
emails, the Orchestrator upserts the company and runs the employees loop
(first email of each kept person) over the filtered people, and a database
failure — caught by the inner `catch (dbError)` — leaves the HTTP response
exactly as it would have been. -/
theorem orchestrator_persists_and_response_stable (parse : String → ParseOutcome)
    (edf : String → Option String) (text : String) (db : OrchDB)
    (r : FinalResult) (ps : List PersonJson)
    (hparse : parse (extractClean text) = ParseOutcome.ok r)
    (hpeople : r.people = PeopleField.arr ps)
    (hcompany : jsTrim r.company ≠ "")
    (hperson : ∃ p ∈ ps, p.name ≠ "" ∧ personKeep p = true) :
    (∃ cid db1,
      upsertCompany db r.company (websiteOrNull r) (adOf r) = .ok (cid, db1) ∧
      (orchestratorFinish ⟨parse, edf, false⟩ text db).2 =
        employeesLoop cid (ps.filter personKeep) db1) ∧
    (∀ b1 b2, (orchestratorFinish ⟨parse, edf, b1⟩ text db).1 =
      (orchestratorFinish ⟨parse, edf, b2⟩ text db).1) ∧
    (orchestratorFinish ⟨parse, edf, true⟩ text db).2 = db := by
  have hcompany' : r.company ≠ "" := by
    intro hc
    exact hcompany (by rw [hc]; rfl)
  have hfilterne : ps.filter personKeep ≠ [] := by
    rcases hperson with ⟨p, hp, _, hkeep⟩
    intro hnil
    have hmem := List.mem_filter.2 ⟨hp, hkeep⟩
    rw [hnil] at hmem
    exact absurd hmem (List.not_mem_nil p)
  have hlen : peopleLenTruthy (PeopleField.arr (ps.filter personKeep)) = true := by
    simp [peopleLenTruthy, List.isEmpty_iff, hfilterne]
  have hstep : ∀ b, orchestratorFinish ⟨parse, edf, b⟩ text db =
      (OrchResp.result { r with people := PeopleField.arr (ps.filter personKeep) }
          (faviconOf edf { r with people := PeopleField.arr (ps.filter personKeep) }),
        orchestratorSave { r with people := PeopleField.arr (ps.filter personKeep) } db b) := by
    intro b
    simp only [orchestratorFinish, hparse, hpeople, hlen]
    simp
  rcases hup : upsertCompany db r.company (websiteOrNull r) (adOf r) with e | cdb1
  · exfalso
    simp only [upsertCompany, if_neg hcompany] at hup
    rcases hfind : db.companies.find?
        (companyMatches (jsTrim r.company) (websiteOrNull r)) with _ | ex <;>
      simp [hfind] at hup
  · rcases cdb1 with ⟨cid, db1⟩
    refine ⟨⟨cid, db1, rfl, ?_⟩, fun b1 b2 => by rw [hstep b1, hstep b2], ?_⟩
    · rw [hstep false]
      simp only [orchestratorSave, Bool.false_eq_true, if_false]
      rw [if_pos ⟨hcompany', hcompany⟩]
      have : upsertCompany db r.company
          (websiteOrNull { r with people := PeopleField.arr (ps.filter personKeep) })
          (adOf { r with people := PeopleField.arr (ps.filter personKeep) }) =
          Except.ok (cid, db1) := hup
      rw [this]
    · rw [hstep true]
      simp [orchestratorSave]

def samplePerson : PersonJson := ⟨"Jane", "CEO", EmailsField.list ["jane@acme.io"]⟩

def sampleFinalResultWithEmail : FinalResult :=
  { sampleFinalResult with people := PeopleField.arr [samplePerson] }

def sampleParseWithEmail : String → ParseOutcome :=
  fun _ => ParseOutcome.ok sampleFinalResultWithEmail

theorem orchestrator_persists_and_response_stable_witness :
    (∃ cid db1,
      upsertCompany emptyOrchDB sampleFinalResultWithEmail.company
          (websiteOrNull sampleFinalResultWithEmail) (adOf sampleFinalResultWithEmail) =
          .ok (cid, db1) ∧
      (orchestratorFinish ⟨sampleParseWithEmail, noDomain, false⟩ "x" emptyOrchDB).2 =
        employeesLoop cid ([samplePerson].filter personKeep) db1) ∧
    (∀ b1 b2,
      (orchestratorFinish ⟨sampleParseWithEmail, noDomain, b1⟩ "x" emptyOrchDB).1 =
        (orchestratorFinish ⟨sampleParseWithEmail, noDomain, b2⟩ "x" emptyOrchDB).1) ∧
    (orchestratorFinish ⟨sampleParseWithEmail, noDomain, true⟩ "x" emptyOrchDB).2 =
      emptyOrchDB :=
  orchestrator_persists_and_response_stable sampleParseWithEmail noDomain "x"
    emptyOrchDB sampleFinalResultWithEmail [samplePerson] rfl rfl
    (by decide) (by decide)

/-! ## Templates routes (`ProtectedTemplates*Route.handle`)

The `better-auth` session lookup is the `session` parameter (`none` = no
authenticated user).  The `templates` table is a list of rows; `crypto
.randomUUID()` and `new Date()` are the `newId`/`now` parameters.  Drizzle's
`.set` skips `undefined` values, so optional update fields are `Option`s and
a missing field leaves the column unchanged. -/

structure TemplateRow where
  id : String
  userId : String
  name : String
  subject : String
  body : String
  createdAt : Nat
  updatedAt : Nat
deriving DecidableEq, Repr

inductive TResp where
  /-- 401 `\x7b"error":"Unauthorized"\x7d`. -/
  | unauthorized
  /-- 404 `\x7b"error":"Template not found"\x7d`. -/
  | notFound
  | okList (ts : List TemplateRow)
  | okCreate (t : TemplateRow)
  | okUpdate (t : TemplateRow)
  | okDelete
deriving DecidableEq, Repr

/-- The WHERE clause of the update/delete routes:
`and(eq(templates.id, id), eq(templates.userId, session.user.id))`. -/
def templateHit (tid uid : String) (r : TemplateRow) : Bool :=
  decide (r.id = tid) && decide (r.userId = uid)

/-- The `.set(\x7b name, subject, body, updatedAt \x7d)` payload applied to a
matched row. -/
def templateSet (nm sj bd : Option String) (now : Nat) (r : TemplateRow) :
    TemplateRow :=
  { r with
    name := nm.getD r.name
    subject := sj.getD r.subject
    body := bd.getD r.body
    updatedAt := now }

/-- `ProtectedTemplatesListRoute.handle`: 401 without a session, else the
session user's templates ordered by `createdAt` descending. -/
def templatesList (session : Option String) (tbl : List TemplateRow) :
    TResp × List TemplateRow :=
  match session with
  | none => (.unauthorized, tbl)
  | some uid =>
    (.okList (((tbl.filter (fun r => decide (r.userId = uid))).mergeSort
      (fun a b => b.createdAt ≤ a.createdAt))), tbl)

/-- `ProtectedTemplatesCreateRoute.handle`. -/
def templatesCreate (session : Option String) (newId : String)
    (nm sj bd : String) (now : Nat) (tbl : List TemplateRow) :
    TResp × List TemplateRow :=
  match session with
  | none => (.unauthorized, tbl)
  | some uid =>
    let row : TemplateRow := ⟨newId, uid, nm, sj, bd, now, now⟩
    (.okCreate row, tbl ++ [row])

/-- `ProtectedTemplatesUpdateRoute.handle`: UPDATE … WHERE id AND userId,
404 when `.returning()` is empty. -/
def templatesUpdate (session : Option String) (tid : String)
    (nm sj bd : Option String) (now : Nat) (tbl : List TemplateRow) :
    TResp × List TemplateRow :=
  match session with
  | none => (.unauthorized, tbl)
  | some uid =>
    let updated := tbl.map (fun r =>
      if templateHit tid uid r then templateSet nm sj bd now r else r)
    match (tbl.filter (templateHit tid uid)).map (templateSet nm sj bd now) with
    | [] => (.notFound, updated)
    | t :: _ => (.okUpdate t, updated)

/-- `ProtectedTemplatesDeleteRoute.handle`: DELETE … WHERE id AND userId,
404 when `.returning()` is empty. -/
def templatesDelete (session : Option String) (tid : String)
    (tbl : List TemplateRow) : TResp × List TemplateRow :=
  match session with
  | none => (.unauthorized, tbl)
  | some uid =>
    let remaining := tbl.filter (fun r => !templateHit tid uid r)
    match tbl.filter (templateHit tid uid) with
    | [] => (.notFound, remaining)
    | _ :: _ => (.okDelete, remaining)

/-- Whatever `.returning()` held, the update route leaves the table as the
mapped UPDATE result. -/
theorem templatesUpdate_snd (uid tid : String) (nm sj bd : Option String)
    (now : Nat) (tbl : List TemplateRow) :
    (templatesUpdate (some uid) tid nm sj bd now tbl).2 =
      tbl.map (fun r =>
        if templateHit tid uid r then templateSet nm sj bd now r else r) := by
  rcases hm : (tbl.filter (templateHit tid uid)).map (templateSet nm sj bd now)
    with _ | ⟨t, ts⟩ <;> simp [templatesUpdate, hm]

theorem map_no_hit_eq_self {tid uid : String} {nm sj bd : Option String}
    {now : Nat} {tbl : List TemplateRow}
    (h : ∀ r ∈ tbl, templateHit tid uid r = false) :
    tbl.map (fun r => if templateHit tid uid r then templateSet nm sj bd now r else r)
      = tbl := by
  induction tbl with
  | nil => rfl
  | cons x xs ih =>
    simp only [List.map_cons, h x (List.mem_cons_self _ _), Bool.false_eq_true,
      if_false, List.cons.injEq, true_and]
    exact ih fun r hr => h r (List.mem_cons_of_mem _ hr)

/-- C6: templates are user-owned.  (a) Any templates request without a
session answers 401 and leaves the table unchanged; (b) update touches a row
only when it carries the session user's id (and the requested template id),
and delete removes only such rows; (c) with unique template ids, naming
another user's template id yields 404 "Template not found" and an unchanged
table for both update and delete. -/
theorem templates_user_owned :
    (∀ (tbl : List TemplateRow) (tid newId nmc sjc bdc : String)
        (nm sj bd : Option String) (now : Nat),
      templatesList none tbl = (TResp.unauthorized, tbl) ∧
      templatesCreate none newId nmc sjc bdc now tbl = (TResp.unauthorized, tbl) ∧
      templatesUpdate none tid nm sj bd now tbl = (TResp.unauthorized, tbl) ∧
      templatesDelete none tid tbl = (TResp.unauthorized, tbl)) ∧
    (∀ (uid tid : String) (nm sj bd : Option String) (now : Nat)
        (tbl : List TemplateRow),
      ((templatesUpdate (some uid) tid nm sj bd now tbl).2.length = tbl.length ∧
        List.Forall₂ (fun old new => new = old ∨ (old.userId = uid ∧ old.id = tid))
          tbl (templatesUpdate (some uid) tid nm sj bd now tbl).2) ∧
      (∀ r ∈ tbl, r ∉ (templatesDelete (some uid) tid tbl).2 →
        r.userId = uid ∧ r.id = tid)) ∧
    (∀ (uid tid : String) (nm sj bd : Option String) (now : Nat)
        (tbl : List TemplateRow),
      (tbl.map TemplateRow.id).Nodup →
      (∃ r ∈ tbl, r.id = tid ∧ r.userId ≠ uid) →
      templatesUpdate (some uid) tid nm sj bd now tbl = (TResp.notFound, tbl) ∧
      templatesDelete (some uid) tid tbl = (TResp.notFound, tbl)) := by
  refine ⟨fun tbl tid newId nmc sjc bdc nm sj bd now => ⟨rfl, rfl, rfl, rfl⟩, ?_, ?_⟩
  · intro uid tid nm sj bd now tbl
    refine ⟨⟨by rw [templatesUpdate_snd]; simp, ?_⟩, ?_⟩
    · rw [templatesUpdate_snd]
      refine forall₂_map_self _ _ fun r hr => ?_
      by_cases hh : templateHit tid uid r = true
      · right
        have := hh
        simp only [templateHit, Bool.and_eq_true, decide_eq_true_eq] at this
        exact ⟨this.2, this.1⟩
      · left
        simp [hh]
    · intro r hr hnot
      by_contra hcon
      apply hnot
      simp only [templatesDelete]
      have hh : templateHit tid uid r = false := by
        cases hht : templateHit tid uid r
        · rfl
        · exfalso
          simp only [templateHit, Bool.and_eq_true, decide_eq_true_eq] at hht
          exact hcon ⟨hht.2, hht.1⟩
      cases hflt : tbl.filter (templateHit tid uid) with
      | nil => exact List.mem_filter.2 ⟨hr, by simp [hh]⟩
      | cons t ts => exact List.mem_filter.2 ⟨hr, by simp [hh]⟩
  · intro uid tid nm sj bd now tbl hnodup hother
    have hnone : ∀ r ∈ tbl, templateHit tid uid r = false := by
      rcases hother with ⟨r0, hr0, hid0, huid0⟩
      intro r hr
      cases hht : templateHit tid uid r
      · rfl
      · exfalso
        simp only [templateHit, Bool.and_eq_true, decide_eq_true_eq] at hht
        have hrr0 : r = r0 := by
          have h1 : r.id = r0.id := by rw [hht.1, hid0]
          exact List.inj_on_of_nodup_map hnodup hr hr0 h1
        rw [hrr0] at hht
        exact huid0 hht.2
    have hfilter : tbl.filter (templateHit tid uid) = [] :=
      List.filter_eq_nil_iff.2 fun r hr => by simp [hnone r hr]
    have hkeep : tbl.filter (fun r => !templateHit tid uid r) = tbl :=
      List.filter_eq_self.2 fun r hr => by simp [hnone r hr]
    constructor
    · simp only [templatesUpdate, hfilter, List.map_nil]
      rw [map_no_hit_eq_self hnone]
    · simp only [templatesDelete, hfilter, hkeep]

def templatesWitnessRow : TemplateRow :=
  ⟨"t1", "alice", "intro", "Hello", "Hi \x7b\x7bfirstName\x7d\x7d", 10, 10⟩

theorem templates_user_owned_witness :
    (templatesList none [templatesWitnessRow] =
        (TResp.unauthorized, [templatesWitnessRow]) ∧
      templatesCreate none "t2" "n" "s" "b" 11 [templatesWitnessRow] =
        (TResp.unauthorized, [templatesWitnessRow]) ∧
      templatesUpdate none "t1" none none none 11 [templatesWitnessRow] =
        (TResp.unauthorized, [templatesWitnessRow]) ∧
      templatesDelete none "t1" [templatesWitnessRow] =
        (TResp.unauthorized, [templatesWitnessRow])) ∧
    (((templatesUpdate (some "bob") "t1" none none none 11
          [templatesWitnessRow]).2.length = [templatesWitnessRow].length ∧
      List.Forall₂ (fun old new => new = old ∨ (old.userId = "bob" ∧ old.id = "t1"))
        [templatesWitnessRow]
        (templatesUpdate (some "bob") "t1" none none none 11 [templatesWitnessRow]).2) ∧
      (∀ r ∈ [templatesWitnessRow],
        r ∉ (templatesDelete (some "bob") "t1" [templatesWitnessRow]).2 →
        r.userId = "bob" ∧ r.id = "t1")) ∧
    (templatesUpdate (some "bob") "t1" none none none 11 [templatesWitnessRow] =
        (TResp.notFound, [templatesWitnessRow]) ∧
      templatesDelete (some "bob") "t1" [templatesWitnessRow] =
        (TResp.notFound, [templatesWitnessRow])) :=
  ⟨templates_user_owned.1 [templatesWitnessRow] "t1" "t2" "n" "s" "b"
      none none none 11,
  templates_user_owned.2.1 "bob" "t1" none none none 11 [templatesWitnessRow],
  templates_user_owned.2.2 "bob" "t1" none none none 11 [templatesWitnessRow]
    (by decide) ⟨templatesWitnessRow, by decide, by decide, by decide⟩⟩

/-! ## Finder agents' DB short-circuit (`PeopleFinder` / `EmailFinder`)

The agents' raw SQL hits the legacy `companies` table.  `normalizeUrl` from
the absent `lib/utils.ts` is the `nu` parameter (`none` = falsy result);
`JSON.parse` of the stored `email` column, checked with `Array.isArray`, is
the `parseArr` parameter (`none` = throw or non-array, handled by the
`catch`/fallback to `[result.email]`).  The constructors `pipeline` stand
for entry into the web-search/LLM path; `cached c` is the early return from
the stored record, which performs no search, no model call and no
verification. -/

structure LegacyRow where
  company_name : String
  website : Option String
  employee_name : String
  employee_title : Option String
  email : String
deriving DecidableEq, Repr

structure PersonEntry where
  name : String
  role : String
deriving DecidableEq, Repr

structure CachedPeople where
  company : String
  website : String
  people : List PersonEntry
deriving DecidableEq, Repr

structure PeopleTuple where
  cn : String
  ws : Option String
  en : String
  et : Option String
deriving DecidableEq, Repr

/-- `PeopleFinder.checkPeopleInDB`: `SELECT DISTINCT company_name, website,
employee_name, employee_title FROM companies WHERE LOWER(company_name) =
LOWER(?)`; `null` when nothing matches, else the first row's company/website
and one person per distinct row. -/
def checkPeopleInDB (nu : Option String → Option String)
    (tbl : List LegacyRow) (companyName : String) : Option CachedPeople :=
  let rows := tbl.filter
    (fun r => decide (asciiLower r.company_name = asciiLower companyName))
  let distinctRows := dedupFirst (rows.map
    (fun r => PeopleTuple.mk r.company_name r.website r.employee_name r.employee_title))
  match distinctRows with
  | [] => none
  | t :: _ =>
    some ⟨t.cn, (nu t.ws).getD "",
      distinctRows.map (fun q => ⟨q.en, jsFalsyOr q.et ""⟩)⟩

inductive PFOutcome where
  /-- 400 `\x7b"error":"Company name is required"\x7d`. -/
  | badRequest
  /-- Early 200 return of the stored record; no search, model or
  verification calls. -/
  | cached (c : CachedPeople)
  /-- The `try` block: web search plus LLM extraction. -/
  | pipeline
deriving DecidableEq, Repr

/-- The decision part of `PeopleFinder.onRequest`: reject a falsy company,
else short-circuit to the stored record when `checkPeopleInDB` finds one. -/
def peopleFinderShortCircuit (nu : Option String → Option String)
    (tbl : List LegacyRow) (company : String) : PFOutcome :=
  if company = "" then .badRequest
  else
    match checkPeopleInDB nu tbl company with
    | some c => .cached c
    | none => .pipeline

structure CachedEmails where
  emails : List String
  company_name : String
  website : String
  employee_name : String
  employee_title : String
  verification_summary : String
deriving DecidableEq, Repr

/-- `EmailFinder.checkEmailsInDB`: first row (LIMIT 1) whose
`LOWER(employee_name)` matches; the stored `email` column parsed as a JSON
array (falling back to the raw string), sliced to 3, reported as all
verified. -/
def checkEmailsInDB (nu : Option String → Option String)
    (parseArr : String → Option (List String)) (tbl : List LegacyRow)
    (employeeName : String) : Option CachedEmails :=
  match tbl.find?
      (fun r => decide (asciiLower r.employee_name = asciiLower employeeName)) with
  | none => none
  | some r =>
    let emails := ((parseArr r.email).getD [r.email]).take 3
    some ⟨emails, r.company_name, (nu r.website).getD "", employeeName,
      jsFalsyOr r.employee_title "",
      toString emails.length ++ " out of " ++ toString emails.length
        ++ " emails verified"⟩

inductive EFOutcome where
  /-- Early 200 return of the cached emails; no search, model or
  verification calls. -/
  | cached (c : CachedEmails)
  /-- The `generateText` path: searches, model call, verification. -/
  | pipeline
deriving DecidableEq, Repr

/-- The decision part of `EmailFinder.onRequest`: the DB is consulted only
when `\x60$\x7bfirstName\x7d $\x7blastName\x7d\x60.trim()` is non-empty and
differs from `"Unknown"`. -/
def emailFinderShortCircuit (nu : Option String → Option String)
    (parseArr : String → Option (List String)) (tbl : List LegacyRow)
    (firstName lastName : String) : EFOutcome :=
  let employeeName := jsTrim (firstName ++ " " ++ lastName)
  if employeeName ≠ "" ∧ employeeName ≠ "Unknown" then
    match checkEmailsInDB nu parseArr tbl employeeName with
    | some c => .cached c
    | none => .pipeline
  else .pipeline

def c8Row : LegacyRow :=
  ⟨"Acme", some "https://acme.io", "Unknown", some "CEO", "[\"x@acme.io\"]"⟩

/-- C8 counterexample: a request whose employee name is `"Unknown"` matches a
stored `employee_name` row, yet the EmailFinder skips the DB check and runs
the full pipeline (model call, searches, verification) instead of returning
the stored record. -/
theorem emailFinder_unknown_skips_cache :
    (∃ r ∈ [c8Row],
      asciiLower r.employee_name = asciiLower (jsTrim ("Unknown" ++ " " ++ ""))) ∧
    emailFinderShortCircuit (fun w => w) (fun _ => none) [c8Row] "Unknown" ""
      = EFOutcome.pipeline := by
  constructor
  · exact ⟨c8Row, by decide, by decide⟩
  · decide

/-- C8 (amended): the short-circuits hold under the agents' guards: a
PeopleFinder request with a non-empty company name matching a stored
`company_name` returns the stored people (drawn from the matching rows,
non-empty) without entering the search/LLM pipeline; an EmailFinder request
whose trimmed employee name is non-empty, differs from `"Unknown"`, and
matches a stored `employee_name` returns at most 3 cached emails from the
stored row with an all-verified summary, without entering the pipeline. -/
theorem finder_agents_short_circuit :
    (∀ (nu : Option String → Option String) (tbl : List LegacyRow)
        (company : String),
      company ≠ "" →
      (∃ r ∈ tbl, asciiLower r.company_name = asciiLower company) →
      ∃ c, peopleFinderShortCircuit nu tbl company = PFOutcome.cached c ∧
        c.people ≠ [] ∧
        ∀ p ∈ c.people, ∃ r ∈ tbl,
          asciiLower r.company_name = asciiLower company ∧
          p.name = r.employee_name ∧ p.role = jsFalsyOr r.employee_title "") ∧
    (∀ (nu : Option String → Option String)
        (parseArr : String → Option (List String)) (tbl : List LegacyRow)
        (firstName lastName : String),
      jsTrim (firstName ++ " " ++ lastName) ≠ "" →
      jsTrim (firstName ++ " " ++ lastName) ≠ "Unknown" →
      (∃ r ∈ tbl, asciiLower r.employee_name =
        asciiLower (jsTrim (firstName ++ " " ++ lastName))) →
      ∃ c, emailFinderShortCircuit nu parseArr tbl firstName lastName =
          EFOutcome.cached c ∧
        c.emails.length ≤ 3 ∧
        c.verification_summary = toString c.emails.length ++ " out of "
          ++ toString c.emails.length ++ " emails verified" ∧
        ∃ r ∈ tbl, asciiLower r.employee_name =
            asciiLower (jsTrim (firstName ++ " " ++ lastName)) ∧
          c.emails = ((parseArr r.email).getD [r.email]).take 3) := by
  constructor
  · intro nu tbl company hne hex
    rcases hex with ⟨r0, hr0, hmatch⟩
    have hmem : r0 ∈ tbl.filter
        (fun r => decide (asciiLower r.company_name = asciiLower company)) :=
      List.mem_filter.2 ⟨hr0, by simp [hmatch]⟩
    rcases hrows : tbl.filter
        (fun r => decide (asciiLower r.company_name = asciiLower company)) with
      _ | ⟨rh, rt⟩
    · rw [hrows] at hmem
      exact absurd hmem (List.not_mem_nil r0)
    · rcases hc : checkPeopleInDB nu tbl company with _ | c
      · exfalso
        simp [checkPeopleInDB, hrows, List.map_cons, dedupFirst_cons] at hc
      · have hc' := hc
        simp only [checkPeopleInDB, hrows, List.map_cons, dedupFirst_cons,
          Option.some.injEq] at hc'
        refine ⟨c, ?_, ?_, ?_⟩
        · simp [peopleFinderShortCircuit, if_neg hne, hc]
        · rw [← hc']
          simp
        · intro p hp
          rw [← hc'] at hp
          simp only at hp
          rcases List.mem_cons.1 hp with rfl | hp'
          · have hrh : rh ∈ tbl.filter
                (fun r => decide (asciiLower r.company_name = asciiLower company)) := by
              rw [hrows]; exact List.mem_cons_self _ _
            have hrh' := List.mem_filter.1 hrh
            exact ⟨rh, hrh'.1, by simpa using hrh'.2, rfl, rfl⟩
          · rcases List.mem_map.1 hp' with ⟨q, hq, rfl⟩
            have hq2 := (mem_dedupFirstGo _ _ _ hq).1
            rcases List.mem_map.1 hq2 with ⟨r, hrmem, rfl⟩
            have hrfil : r ∈ tbl.filter
                (fun r => decide (asciiLower r.company_name = asciiLower company)) := by
              rw [hrows]; exact List.mem_cons_of_mem _ hrmem
            have hrtbl := List.mem_filter.1 hrfil
            exact ⟨r, hrtbl.1, by simpa using hrtbl.2, rfl, rfl⟩
  · intro nu parseArr tbl firstName lastName hne hunknown hex
    rcases hex with ⟨r0, hr0, hmatch⟩
    have hfind : (tbl.find? (fun r => decide (asciiLower r.employee_name =
        asciiLower (jsTrim (firstName ++ " " ++ lastName))))).isSome := by
      rw [List.find?_isSome]
      exact ⟨r0, hr0, by simp [hmatch]⟩
    rcases hf : tbl.find? (fun r => decide (asciiLower r.employee_name =
        asciiLower (jsTrim (firstName ++ " " ++ lastName)))) with _ | rfound
    · rw [hf] at hfind; simp at hfind
    · have hrf := List.mem_of_find?_eq_some hf
      have hrfmatch := List.find?_some hf
      rcases hc : checkEmailsInDB nu parseArr tbl
          (jsTrim (firstName ++ " " ++ lastName)) with _ | c
      · exfalso
        simp [checkEmailsInDB, hf] at hc
      · have hc' := hc
        simp only [checkEmailsInDB, hf, Option.some.injEq] at hc'
        have hguard : jsTrim (firstName ++ " " ++ lastName) ≠ "" ∧
            jsTrim (firstName ++ " " ++ lastName) ≠ "Unknown" := ⟨hne, hunknown⟩
        refine ⟨c, ?_, ?_, ?_, ?_⟩
        · simp only [emailFinderShortCircuit]
          rw [if_pos hguard, hc]
        · rw [← hc']
          exact List.length_take_le 3 _
        · rw [← hc']
        · rw [← hc']
          exact ⟨rfound, hrf, by simpa using hrfmatch, rfl⟩

theorem finder_agents_short_circuit_witness :
    (∃ c, peopleFinderShortCircuit (fun w => w) [c8Row] "acme" =
        PFOutcome.cached c ∧
      c.people ≠ [] ∧
      ∀ p ∈ c.people, ∃ r ∈ [c8Row],
        asciiLower r.company_name = asciiLower "acme" ∧
        p.name = r.employee_name ∧ p.role = jsFalsyOr r.employee_title "") ∧
    (∃ c, emailFinderShortCircuit (fun w => w) (fun _ => none) [c8Row]
        "unknown" "" = EFOutcome.cached c ∧
      c.emails.length ≤ 3 ∧
      c.verification_summary = toString c.emails.length ++ " out of "
        ++ toString c.emails.length ++ " emails verified" ∧
      ∃ r ∈ [c8Row], asciiLower r.employee_name =
          asciiLower (jsTrim ("unknown" ++ " " ++ "")) ∧
        c.emails = (((fun _ => none : String → Option (List String))
          r.email).getD [r.email]).take 3) := by
  constructor
  · exact finder_agents_short_circuit.1 (fun w => w) [c8Row] "acme"
      (by decide) ⟨c8Row, by decide, by decide⟩
  · exact finder_agents_short_circuit.2 (fun w => w) (fun _ => none) [c8Row]
      "unknown" "" (by decide) (by decide) ⟨c8Row, by decide, by decide⟩

/-! ## Vectorize population (`lib/vectorize.ts`, `VectorizePopulateCompaniesRoute`)

`VectorizeHandler.populateCompanies()` takes no parameters: it loads every
`company_profiles` row, embeds each (`env.AI.run`, the `embedFn` parameter,
per-company failures collected into `errors`) and inserts the vectors
(`COMPANY_VECTORS.insert`, the `insertFn` parameter, a throw caught by the
outer `catch`).  The route parses `offset`/`limit` query parameters and
passes them to the 0-ary method, where JavaScript silently drops them. -/

structure VecEnv where
  companies : List CompanyRow
  embedFn : CompanyRow → Except String Unit
  insertFn : List String → Except String String

/-- The handler's return value: only these five keys ever appear, each
`Option` field present exactly when the corresponding branch sets it. -/
structure PopResult where
  success : Bool
  message : Option String
  errors : Option (List (String × String))
  details : Option String
  error : Option String
deriving DecidableEq, Repr

/-- The JSON keys `Response.json` serialises for a `PopResult` (an absent
`Option` field is `undefined` and dropped). -/
def popResultKeys (r : PopResult) : List String :=
  ["success"]
    ++ (if r.message.isSome then ["message"] else [])
    ++ (if r.errors.isSome then ["errors"] else [])
    ++ (if r.details.isSome then ["details"] else [])
    ++ (if r.error.isSome then ["error"] else [])

/-- `VectorizeHandler.populateCompanies` — note: no `offset`/`limit`
parameters; the whole table is processed on every call. -/
def populateCompanies (env : VecEnv) : PopResult :=
  if env.companies.isEmpty then
    ⟨false, some "No companies found in database", none, none, none⟩
  else
    let step := env.companies.map (fun c =>
      match env.embedFn c with
      | .ok _ => Sum.inl ("company_" ++ toString c.id)
      | .error e => Sum.inr (c.companyName, e))
    let vectors := step.filterMap (fun s =>
      match s with | .inl v => some v | .inr _ => none)
    let errors := step.filterMap (fun s =>
      match s with | .inl _ => none | .inr e => some e)
    if vectors.isEmpty then
      ⟨false, some "No vectors generated", some errors, none, none⟩
    else
      match env.insertFn vectors with
      | .ok d =>
        ⟨true, some ("Populated " ++ toString vectors.length ++ " company vectors"),
          if errors.isEmpty then none else some errors, some d, none⟩
      | .error e => ⟨false, none, none, none, some e⟩

/-- `parseInt(s, 10)`: optional sign and leading decimal digits; `none` is
`NaN`. -/
def parseIntJS (s : String) : Option Int :=
  let t := (jsTrim s).data
  let core := fun (ds : List Char) =>
    let digits := ds.takeWhile Char.isDigit
    if digits.isEmpty then (none : Option Nat)
    else some (digits.foldl (fun n c => n * 10 + (c.toNat - 48)) 0)
  match t with
  | '-' :: ds => (core ds).map (fun n => -(Int.ofNat n))
  | '+' :: ds => (core ds).map Int.ofNat
  | ds => (core ds).map Int.ofNat

/-- `VectorizePopulateCompaniesRoute.handle`: validates/parses the query,
calls the parameterless handler (the parsed values are dropped), and answers
200/500 on `result.success`. -/
def populateCompaniesRoute (env : VecEnv) (offsetParam limitParam : Option String) :
    Nat × PopResult :=
  let _offset := parseIntJS (offsetParam.getD "0")
  let _limit := parseIntJS (limitParam.getD "50")
  let result := populateCompanies env
  (if result.success then 200 else 500, result)

theorem popResultKeys_subset (r : PopResult) :
    ∀ k ∈ popResultKeys r,
      k ∈ ["success", "message", "errors", "details", "error"] := by
  intro k hk
  by_cases h1 : r.message.isSome <;> by_cases h2 : r.errors.isSome <;>
    by_cases h3 : r.details.isSome <;> by_cases h4 : r.error.isSome <;>
    simp only [popResultKeys, h1, h2, h3, h4, if_true, if_false,
      List.append_nil, List.nil_append, List.mem_append,
      List.mem_singleton, List.mem_cons, List.not_mem_nil, or_false,
      false_or] at hk ⊢ <;>
    tauto

/-- C10: the populate-companies route is insensitive to its `offset` and
`limit` query parameters — any two parameter choices give the same status
and body over the same database — and none of the pagination fields promised
by the route schema (`processed`, `total`, `hasMore`, `nextOffset`) ever
appears among the handler's serialised keys. -/
theorem populateRoute_ignores_pagination :
    (∀ (env : VecEnv) (o l o' l' : Option String),
      populateCompaniesRoute env o l = populateCompaniesRoute env o' l') ∧
    (∀ env : VecEnv,
      "processed" ∉ popResultKeys (populateCompanies env) ∧
      "total" ∉ popResultKeys (populateCompanies env) ∧
      "hasMore" ∉ popResultKeys (populateCompanies env) ∧
      "nextOffset" ∉ popResultKeys (populateCompanies env)) := by
  refine ⟨fun env o l o' l' => rfl, fun env => ⟨?_, ?_, ?_, ?_⟩⟩ <;>
    · intro h
      have hmem := popResultKeys_subset _ _ h
      revert hmem
      decide

theorem populateRoute_ignores_pagination_witness :
    populateCompaniesRoute ⟨[], fun _ => .ok (), fun _ => .ok "ins"⟩
        (some "0") (some "50") =
      populateCompaniesRoute ⟨[], fun _ => .ok (), fun _ => .ok "ins"⟩
        (some "100") (some "7") ∧
    "processed" ∉ popResultKeys
      (populateCompanies ⟨[], fun _ => .ok (), fun _ => .ok "ins"⟩) :=
  ⟨populateRoute_ignores_pagination.1 ⟨[], fun _ => .ok (), fun _ => .ok "ins"⟩
      (some "0") (some "50") (some "100") (some "7"),
    (populateRoute_ignores_pagination.2 ⟨[], fun _ => .ok (), fun _ => .ok "ins"⟩).1⟩

end Outflow
